import Mathlib

/-!
# Verification of the codex-monitor-webui connectivity layer

Shallow embedding of the connectivity core of the repository:

* the backend acquirer and process supervisor (`bin/codex-monitor.mjs`,
  `scripts/install-backend.mjs`), and
* the browser-side RPC session client (`src/platform/backendConfig.ts`,
  class `RpcClient`).

Definitions are translated from the JavaScript/TypeScript source; theorems
check the specification's claims against them.
-/

deriving instance DecidableEq for Except

namespace CodexMonitor

/-! ## Backend acquirer (`bin/codex-monitor.mjs`)

The acquirer's file-system and environment observations are collected into
an environment record: each field records the value the script would read
at the corresponding point (trimmed environment variables are `""` when
unset, exactly as `(process.env.X ?? "").trim()` yields).  Effects that the
claims talk about (cache stat, network fetch, PATH scan) are tracked
explicitly in the result. -/

/-- Result of `fs.stat` on a path: `isFile`/`size` as reported, plus whether
the file would pass an `X_OK` access check (only consulted by the install
script). `none` models a stat that throws (missing path). -/
structure FileStat where
  isFile : Bool
  size : Nat
  executable : Bool
  deriving DecidableEq

/-- Inputs of `resolveBackendCommand` / `ensureDownloadedBackend`. -/
structure AcqEnv where
  /-- `options.backendPath` (`--backend-path`). -/
  backendPath : Option String
  /-- `(process.env.CODEX_MONITOR_BACKEND_PATH ?? "").trim()`. -/
  envBackendPath : String
  /-- `options.allowBackendDownload` (cleared by `--no-backend-download`). -/
  allowBackendDownload : Bool
  /-- `process.env.CODEX_MONITOR_SKIP_BACKEND_DOWNLOAD === "1"`. -/
  skipDownloadEnv : Bool
  /-- resolved backend cache directory (`resolveBackendCacheDir`). -/
  cacheDir : String
  /-- `readPackageVersion()`. -/
  version : String
  /-- `platformKey()`, i.e. `<platform>-<arch>`. -/
  platformArch : String
  /-- `process.platform === "win32"`. -/
  isWin32 : Bool
  /-- `stat(targetPath)` for the cached binary (`none` = stat throws). -/
  cacheStat : Option FileStat
  /-- `(process.env.CODEX_MONITOR_BACKEND_URL ?? "").trim()`. -/
  directUrl : String
  /-- `defaultBackendReleaseBase()`. -/
  releaseBase : String
  /-- whether `fetch(downloadUrl)` succeeds with an ok response and body. -/
  downloadOk : Bool
  /-- `resolveCommandInPath` over the well-known backend binary names. -/
  pathLookup : Option String
  /-- `resolveCommandInPath("cargo")`. -/
  cargoPath : Option String
  /-- `existsSync(resolve(projectRoot, "src-tauri"))`. -/
  tauriDirExists : Bool
  deriving DecidableEq

/-- `backendFilename()`. -/
def backendFilename (e : AcqEnv) : String :=
  if e.isWin32 then "codex_monitor_web.exe" else "codex_monitor_web"

/-- The cached binary's target path
`<cache-dir>/backend/<version>/<platform-arch>/<name>` (path joins modelled
as `/`-concatenation). -/
def cacheTarget (e : AcqEnv) : String :=
  e.cacheDir ++ "/backend/" ++ e.version ++ "/" ++ e.platformArch ++ "/" ++ backendFilename e

/-- Effects performed during one acquisition run. -/
structure AcqEffects where
  /-- the cached target path was stat-ed. -/
  cacheChecked : Bool
  /-- a network fetch was attempted. -/
  networkAccessed : Bool
  /-- the OS command search path was scanned. -/
  pathSearched : Bool
  deriving DecidableEq

def noEffects : AcqEffects := ⟨false, false, false⟩

/-- The run-time cache acceptance test of `ensureDownloadedBackend`:
`info.isFile() && info.size > 0` after a successful `stat`. -/
def cacheEntryAccepted (e : AcqEnv) : Bool :=
  match e.cacheStat with
  | some info => info.isFile && decide (0 < info.size)
  | none => false

/-- `ensureDownloadedBackend(options)`: returns the cached or freshly
downloaded path, `none` when downloading is disallowed, skipped, or no URL
source is configured, and an error when the fetch response is not ok
(`throw new Error("Failed to download backend …")`). -/
def ensureDownloadedBackend (e : AcqEnv) : Except String (Option String) × AcqEffects :=
  if cacheEntryAccepted e then
    (Except.ok (some (cacheTarget e)), ⟨true, false, false⟩)
  else if !e.allowBackendDownload then
    (Except.ok none, ⟨true, false, false⟩)
  else if e.skipDownloadEnv then
    (Except.ok none, ⟨true, false, false⟩)
  else if e.directUrl == "" && e.releaseBase == "" then
    (Except.ok none, ⟨true, false, false⟩)
  else if e.downloadOk then
    (Except.ok (some (cacheTarget e)), ⟨true, true, false⟩)
  else
    (Except.error "Failed to download backend", ⟨true, true, false⟩)

/-- A runnable backend command descriptor. -/
structure BackendCmd where
  command : String
  args : List String
  /-- whether the working directory is the `src-tauri` checkout (cargo fallback). -/
  cwdTauri : Bool
  deriving DecidableEq

/-- `resolveBackendCommand(options)`: explicit path → env path → cached or
downloaded binary → PATH lookup → cargo source fallback → `null`.  A
download error propagates (there is no `try`/`catch` around
`ensureDownloadedBackend` in the source). -/
def resolveBackendCommand (e : AcqEnv) : Except String (Option BackendCmd) × AcqEffects :=
  match e.backendPath with
  | some p => (Except.ok (some ⟨p, [], false⟩), noEffects)
  | none =>
    if e.envBackendPath != "" then
      (Except.ok (some ⟨e.envBackendPath, [], false⟩), noEffects)
    else
      match ensureDownloadedBackend e with
      | (Except.error msg, eff) => (Except.error msg, eff)
      | (Except.ok (some p), eff) => (Except.ok (some ⟨p, [], false⟩), eff)
      | (Except.ok none, eff) =>
        match e.pathLookup with
        | some p => (Except.ok (some ⟨p, [], false⟩), { eff with pathSearched := true })
        | none =>
          match e.cargoPath with
          | some cargo =>
            if e.tauriDirExists then
              (Except.ok (some ⟨cargo, ["run", "--bin", "codex_monitor_web", "--"], true⟩),
                { eff with pathSearched := true })
            else
              (Except.ok none, { eff with pathSearched := true })
          | none => (Except.ok none, { eff with pathSearched := true })

/-- The cache acceptance condition as the specification words it: the entry
exists, is a regular file, is non-empty, and on non-Windows platforms is
executable.  Stated for comparison with `cacheEntryAccepted`, the condition
the run-time code actually tests. -/
def specCacheAccepted (e : AcqEnv) : Bool :=
  match e.cacheStat with
  | some info => info.isFile && decide (0 < info.size) && (e.isWin32 || info.executable)
  | none => false

/-! ## Install step (`scripts/install-backend.mjs`) -/

/-- `ensureExecutableExists(filePath)` of the install script: regular file,
non-empty, and (non-Windows) passing an `X_OK` access check. -/
def ensureExecutableExists (isWin32 : Bool) (st : Option FileStat) : Bool :=
  match st with
  | some info => info.isFile && decide (0 < info.size) && (isWin32 || info.executable)
  | none => false

/-- How one run of the install script terminates. -/
inductive InstallOutcome where
  /-- returned normally (cached hit, skip, or successful download). -/
  | ok
  /-- warned and returned normally (soft failure). -/
  | warned
  /-- threw, making the process exit non-zero (hard failure). -/
  | failed
  deriving DecidableEq

/-- Inputs of the install script's `main`. -/
structure InstallEnv where
  /-- `shouldSkipDownload()`. -/
  skipEnv : Bool
  /-- `process.env.CODEX_MONITOR_BACKEND_INSTALL_STRICT === "1"`. -/
  strict : Bool
  isWin32 : Bool
  /-- `stat(targetPath)` before any download. -/
  cacheStat : Option FileStat
  /-- `normalizeOptionalString(process.env.CODEX_MONITOR_BACKEND_URL)` is non-null. -/
  haveDirectUrl : Bool
  /-- `resolveReleaseBase()`. -/
  releaseBase : String
  /-- whether `downloadFile` succeeds. -/
  downloadOk : Bool
  /-- `stat(targetPath)` after a successful download. -/
  downloadedStat : Option FileStat
  deriving DecidableEq

/-- `main()` of `scripts/install-backend.mjs`. -/
def installBackendMain (e : InstallEnv) : InstallOutcome :=
  if e.skipEnv then InstallOutcome.ok
  else if ensureExecutableExists e.isWin32 e.cacheStat then InstallOutcome.ok
  else if !e.haveDirectUrl && e.releaseBase == "" then
    (if e.strict then InstallOutcome.failed else InstallOutcome.warned)
  else if !e.downloadOk then
    (if e.strict then InstallOutcome.failed else InstallOutcome.warned)
  else if ensureExecutableExists e.isWin32 e.downloadedStat then InstallOutcome.ok
  else (if e.strict then InstallOutcome.failed else InstallOutcome.warned)

/-! ## Readiness probe and startup race (`bin/codex-monitor.mjs`, `main`)

`waitForBackendReady` races against a promise rejected on the backend
child's `exit` event (`Promise.race([backendReadyPromise,
backendExitedPromise])`).  One run of this race is modelled as the sequence
of observable events in the order the single-threaded event loop delivers
them; the first settling event wins and the loser is not awaited further. -/

inductive ProbeEvent where
  /-- a TCP connection attempt failed or timed out; the probe re-arms after
  the retry interval. -/
  | attemptFail
  /-- a TCP connection attempt succeeded (probe socket closed immediately). -/
  | attemptSuccess
  /-- the backend child process exited with the given code/signal flag. -/
  | backendExit (code : Option Int) (signaled : Bool)
  /-- the overall probe deadline elapsed. -/
  | deadline
  deriving DecidableEq

inductive RaceOutcome where
  | ready
  | exitedEarly (code : Option Int) (signaled : Bool)
  | timedOut
  deriving DecidableEq

/-- The first settling event decides the race. -/
def raceResult : List ProbeEvent → Option RaceOutcome
  | [] => none
  | ProbeEvent.attemptFail :: rest => raceResult rest
  | ProbeEvent.attemptSuccess :: _ => some RaceOutcome.ready
  | ProbeEvent.backendExit c s :: _ => some (RaceOutcome.exitedEarly c s)
  | ProbeEvent.deadline :: _ => some RaceOutcome.timedOut

/-- What `main` reports after the readiness race, in full-stack mode. -/
structure StartupReport where
  failed : Bool
  /-- `process.exit` argument, when the supervisor exits during startup. -/
  exitCode : Option Nat
  frontendStarted : Bool
  deriving DecidableEq

/-- The readiness-race continuation in `main`: on success the frontend child
is spawned; on any race failure the error is logged, the backend is killed,
and the supervisor calls `process.exit(1)`. -/
def supervisorStartup (evs : List ProbeEvent) : StartupReport :=
  match raceResult evs with
  | some RaceOutcome.ready => ⟨false, none, true⟩
  | some (RaceOutcome.exitedEarly _ _) => ⟨true, some 1, false⟩
  | some RaceOutcome.timedOut => ⟨true, some 1, false⟩
  | none => ⟨false, none, false⟩

/-! ## RPC session client (`src/platform/backendConfig.ts`, class `RpcClient`)

The client's mutable fields become a state record; each WebSocket/timer
callback and each public method becomes one event of a step function.
Handlers are identified by numbers (JavaScript compares them by reference);
whether a handler throws when invoked is supplied by a `throws` oracle, so
that exception isolation during notification dispatch is observable.

A `call()` is modelled at the point its `await this.connect()` has resolved
with an open socket (the path that allocates an id and touches the pending
map).  A `call()` whose connect attempt fails rejects once by `throw`ing
inside the async function before any id is allocated and touches no client
state, so its exactly-once settlement is immediate.  The re-arming `catch`
on a failed reconnect attempt schedules a further timer but performs no
settlement and is not needed by the claims below. -/

/-- How a pending call's promise was settled. -/
inductive SettleKind where
  /-- matching `{id, result}` reply. -/
  | resolved
  /-- matching `{id, error}` reply. -/
  | rpcError
  /-- the per-call timeout fired. -/
  | timedOut
  /-- `socket.send` threw. -/
  | sendFailed
  /-- `rejectAllPending("RPC websocket disconnected")` in `onclose`. -/
  | disconnected
  deriving DecidableEq

/-- One settlement: the call's id and how it settled. -/
abbrev Settlement := Nat × SettleKind

/-- The mutable fields of `RpcClient`.  `listeners` models the
`Map<string, Set<NotificationHandler>>`: insertion-ordered association list
of insertion-ordered handler lists. -/
structure RpcState where
  /-- `socket !== null && socket.readyState === OPEN`. -/
  socketOpen : Bool
  /-- `connectPromise !== null`. -/
  connecting : Bool
  /-- `nextId`. -/
  nextId : Nat
  /-- insertion-ordered ids of the `pending` map's keys. -/
  pending : List Nat
  /-- the `listeners` map. -/
  listeners : List (String × List Nat)
  /-- `reconnectHandle !== null`. -/
  reconnectScheduled : Bool
  /-- `intentionalClose`. -/
  intentionalClose : Bool
  deriving DecidableEq

def initRpcState : RpcState := ⟨false, false, 1, [], [], false, false⟩

/-- `listeners.get(method) ?? []` read out as a list. -/
def lookupTopic (ls : List (String × List Nat)) (t : String) : List Nat :=
  match ls with
  | [] => []
  | (t', hs) :: rest => if t' == t then hs else lookupTopic rest t

/-- `subscribe`'s map update: `set.add(handler)` dedups by reference and
keeps insertion order; a new topic is appended to the map. -/
def addHandler (ls : List (String × List Nat)) (t : String) (h : Nat) :
    List (String × List Nat) :=
  match ls with
  | [] => [(t, [h])]
  | (t', hs) :: rest =>
    if t' == t then (t', if h ∈ hs then hs else hs ++ [h]) :: rest
    else (t', hs) :: addHandler rest t h

/-- The unsubscribe closure: delete the handler; delete the topic when its
set becomes empty. -/
def removeHandler (ls : List (String × List Nat)) (t : String) (h : Nat) :
    List (String × List Nat) :=
  match ls with
  | [] => []
  | (t', hs) :: rest =>
    if t' == t then
      (let hs' := hs.filter (fun x => x != h)
       if hs' = [] then rest else (t', hs') :: rest)
    else (t', hs) :: removeHandler rest t h

/-- Events the client reacts to. -/
inductive RpcEvent where
  /-- `connectRpc()` / `connect()` called directly. -/
  | connectEv
  /-- `socket.onopen`. -/
  | openEv
  /-- `socket.onerror` (rejects the in-flight connect promise). -/
  | errorEv
  /-- `socket.onclose`. -/
  | closeEv
  /-- `disconnect()` (the closing socket's `onclose` is delivered as a
  subsequent `closeEv`). -/
  | disconnectEv
  /-- `call()` past its open-socket check; `sendFails` = `socket.send` throws. -/
  | callEv (sendFails : Bool)
  /-- an inbound `{id, …}` reply; `isError` = it carries an `error` member. -/
  | replyEv (id : Nat) (isError : Bool)
  /-- an inbound `{method, params}` notification. -/
  | notifyEv (topic : String)
  /-- the per-call timeout timer for `id` fires. -/
  | timeoutEv (id : Nat)
  /-- `subscribe(topic, handler)`. -/
  | subscribeEv (topic : String) (h : Nat)
  /-- the unsubscribe closure returned for `(topic, handler)` is called. -/
  | unsubscribeEv (topic : String) (h : Nat)
  /-- the reconnect timer fires. -/
  | reconnectFire
  deriving DecidableEq

/-- Observable output of one step. -/
structure StepOut where
  /-- promise settlements performed by this step, in order. -/
  settles : List Settlement
  /-- a fresh connection attempt (a new `WebSocket`) was initiated. -/
  connects : Bool
  /-- notification handlers invoked, with whether each invocation threw
  (thrown exceptions are caught and logged, never propagated). -/
  invoked : List (Nat × Bool)
  deriving DecidableEq

def noOut : StepOut := ⟨[], false, []⟩

/-- `connect()`: immediately resolved when the socket is open; returns the
shared promise when already connecting; otherwise clears the
intentional-close flag and opens a fresh socket. -/
def tryConnect (st : RpcState) : RpcState × Bool :=
  if st.socketOpen || st.connecting then (st, false)
  else ({ st with intentionalClose := false, connecting := true }, true)

/-- One event-loop callback of `RpcClient`. -/
def step (throws : Nat → Bool) (st : RpcState) (e : RpcEvent) : RpcState × StepOut :=
  match e with
  | RpcEvent.connectEv =>
    let (st1, c) := tryConnect st
    (st1, ⟨[], c, []⟩)
  | RpcEvent.openEv =>
    if st.connecting then ({ st with connecting := false, socketOpen := true }, noOut)
    else (st, noOut)
  | RpcEvent.errorEv =>
    if st.connecting then ({ st with connecting := false }, noOut)
    else (st, noOut)
  | RpcEvent.closeEv =>
    let settles := st.pending.map (fun i => (i, SettleKind.disconnected))
    ({ st with
        socketOpen := false
        pending := []
        reconnectScheduled := st.reconnectScheduled || !st.intentionalClose },
      ⟨settles, false, []⟩)
  | RpcEvent.disconnectEv =>
    ({ st with intentionalClose := true, reconnectScheduled := false, socketOpen := false },
      noOut)
  | RpcEvent.callEv sendFails =>
    if st.socketOpen then
      let id := st.nextId
      if sendFails then
        ({ st with nextId := id + 1 }, ⟨[(id, SettleKind.sendFailed)], false, []⟩)
      else
        ({ st with nextId := id + 1, pending := st.pending ++ [id] }, ⟨[], false, []⟩)
    else (st, noOut)
  | RpcEvent.replyEv id isErr =>
    if id ∈ st.pending then
      ({ st with pending := st.pending.erase id },
        ⟨[(id, if isErr then SettleKind.rpcError else SettleKind.resolved)], false, []⟩)
    else (st, noOut)
  | RpcEvent.notifyEv t =>
    (st, ⟨[], false, (lookupTopic st.listeners t).map (fun h => (h, throws h))⟩)
  | RpcEvent.timeoutEv id =>
    if id ∈ st.pending then
      ({ st with pending := st.pending.erase id }, ⟨[(id, SettleKind.timedOut)], false, []⟩)
    else (st, noOut)
  | RpcEvent.subscribeEv t h =>
    let (st1, c) := tryConnect { st with listeners := addHandler st.listeners t h }
    (st1, ⟨[], c, []⟩)
  | RpcEvent.unsubscribeEv t h =>
    ({ st with listeners := removeHandler st.listeners t h }, noOut)
  | RpcEvent.reconnectFire =>
    if st.reconnectScheduled then
      let st1 := { st with reconnectScheduled := false }
      if st1.listeners.isEmpty && st1.pending.isEmpty then (st1, noOut)
      else
        let (st2, c) := tryConnect st1
        (st2, ⟨[], c, []⟩)
    else (st, noOut)

/-- Ids allocated by an event fired from state `st` (the `nextId++` in
`call()`). -/
def allocOf (st : RpcState) : RpcEvent → List Nat
  | RpcEvent.callEv _ => if st.socketOpen then [st.nextId] else []
  | _ => []

/-- Accumulated observables of a run. -/
structure RunOut where
  state : RpcState
  settles : List Settlement
  allocated : List Nat

/-- Run a sequence of events. -/
def runRpc (throws : Nat → Bool) (st : RpcState) : List RpcEvent → RunOut
  | [] => ⟨st, [], []⟩
  | e :: evs =>
    let p := step throws st e
    let r := runRpc throws p.1 evs
    ⟨r.state, p.2.settles ++ r.settles, allocOf st e ++ r.allocated⟩

/-- A throw-nothing handler oracle; the client's state evolution never
depends on the oracle, so runs about state use this one. -/
def thr0 : Nat → Bool := fun _ => false

/-- The client state after a run from the initial state. -/
def stateAfter (evs : List RpcEvent) : RpcState := (runRpc thr0 initRpcState evs).state

/-- The observable of claim C1: after a close event, does the reconnect
timer's expiry actually initiate a new connection attempt? -/
def closeThenFire (st : RpcState) : Bool :=
  ((step thr0 (step thr0 st RpcEvent.closeEv).1 RpcEvent.reconnectFire).2).connects

/-- The handlers registered for topic `t` after one more event, computed
from the event history (set semantics: re-adding is a no-op; unsubscribe
removes the handler). -/
def regStep (t : String) (acc : List Nat) : RpcEvent → List Nat
  | RpcEvent.subscribeEv t' h =>
    if t' == t then (if h ∈ acc then acc else acc ++ [h]) else acc
  | RpcEvent.unsubscribeEv t' h =>
    if t' == t then acc.filter (fun x => x != h) else acc
  | _ => acc

/-- The handlers registered for topic `t` after an event history, in
registration order. -/
def registeredAfter (evs : List RpcEvent) (t : String) : List Nat :=
  evs.foldl (regStep t) []

/-- The observable of one notification dispatch after a run. -/
def notifyOut (throws : Nat → Bool) (evs : List RpcEvent) (t : String) : StepOut :=
  (step throws (runRpc throws initRpcState evs).state (RpcEvent.notifyEv t)).2

/-- An acquisition environment on linux-x64 whose cached binary is a
non-empty regular file that is **not** executable, with no explicit path,
no environment override, and no download source configured. -/
def nonExecCacheEnv : AcqEnv :=
  ⟨none, "", true, false, "/cache", "1.2.0", "linux-x64", false,
    some ⟨true, 10, false⟩, "", "", false, none, none, false⟩

/-- An acquisition environment with no usable cache, a configured direct
download URL, and a failing download. -/
def failingDownloadEnv : AcqEnv :=
  ⟨none, "", true, false, "/cache", "1.2.0", "linux-x64", false,
    none, "https://example.invalid/bin", "", false, none, none, false⟩

/-! ## Helper lemmas: acquisition chain -/

theorem resolve_explicit (e : AcqEnv) (p : String) (hp : e.backendPath = some p) :
    resolveBackendCommand e = (Except.ok (some ⟨p, [], false⟩), noEffects) := by
  simp [resolveBackendCommand, hp]

theorem resolve_envPath (e : AcqEnv) (h1 : e.backendPath = none)
    (h2 : e.envBackendPath ≠ "") :
    resolveBackendCommand e = (Except.ok (some ⟨e.envBackendPath, [], false⟩), noEffects) := by
  simp [resolveBackendCommand, h1, h2]

theorem resolve_cache_hit (e : AcqEnv) (h1 : e.backendPath = none)
    (h2 : e.envBackendPath = "") (h3 : cacheEntryAccepted e = true) :
    resolveBackendCommand e
      = (Except.ok (some ⟨cacheTarget e, [], false⟩), ⟨true, false, false⟩) := by
  simp [resolveBackendCommand, ensureDownloadedBackend, h1, h2, h3]

theorem resolve_download_ok (e : AcqEnv) (h1 : e.backendPath = none)
    (h2 : e.envBackendPath = "") (h3 : cacheEntryAccepted e = false)
    (h4 : e.allowBackendDownload = true) (h5 : e.skipDownloadEnv = false)
    (h6 : (e.directUrl == "" && e.releaseBase == "") = false) (h7 : e.downloadOk = true) :
    resolveBackendCommand e
      = (Except.ok (some ⟨cacheTarget e, [], false⟩), ⟨true, true, false⟩) := by
  simp [resolveBackendCommand, ensureDownloadedBackend, h1, h2, h3, h4, h5, h6, h7]

theorem resolve_download_error (e : AcqEnv) (h1 : e.backendPath = none)
    (h2 : e.envBackendPath = "") (h3 : cacheEntryAccepted e = false)
    (h4 : e.allowBackendDownload = true) (h5 : e.skipDownloadEnv = false)
    (h6 : (e.directUrl == "" && e.releaseBase == "") = false) (h7 : e.downloadOk = false) :
    resolveBackendCommand e = (Except.error "Failed to download backend", ⟨true, true, false⟩) := by
  simp [resolveBackendCommand, ensureDownloadedBackend, h1, h2, h3, h4, h5, h6, h7]

theorem resolve_path_lookup (e : AcqEnv) (h1 : e.backendPath = none)
    (h2 : e.envBackendPath = "")
    (h3 : ensureDownloadedBackend e = (Except.ok none, ⟨true, false, false⟩))
    (q : String) (h4 : e.pathLookup = some q) :
    resolveBackendCommand e = (Except.ok (some ⟨q, [], false⟩), ⟨true, false, true⟩) := by
  simp [resolveBackendCommand, h1, h2, h3, h4]

theorem resolve_cargo (e : AcqEnv) (h1 : e.backendPath = none)
    (h2 : e.envBackendPath = "")
    (h3 : ensureDownloadedBackend e = (Except.ok none, ⟨true, false, false⟩))
    (h4 : e.pathLookup = none) (cg : String) (h5 : e.cargoPath = some cg)
    (h6 : e.tauriDirExists = true) :
    resolveBackendCommand e
      = (Except.ok (some ⟨cg, ["run", "--bin", "codex_monitor_web", "--"], true⟩),
          ⟨true, false, true⟩) := by
  simp [resolveBackendCommand, h1, h2, h3, h4, h5, h6]

theorem install_download_failure (ie : InstallEnv) (i1 : ie.skipEnv = false)
    (i2 : ensureExecutableExists ie.isWin32 ie.cacheStat = false)
    (i3 : (!ie.haveDirectUrl && ie.releaseBase == "") = false) (i4 : ie.downloadOk = false) :
    installBackendMain ie
      = (if ie.strict then InstallOutcome.failed else InstallOutcome.warned) := by
  simp [installBackendMain, i1, i2, i3, i4]

/-! ## Helper lemmas: readiness race -/

theorem raceResult_exit_first (pre : List ProbeEvent) (c : Option Int) (s : Bool)
    (rest : List ProbeEvent) (hpre : ∀ e ∈ pre, e = ProbeEvent.attemptFail) :
    raceResult (pre ++ ProbeEvent.backendExit c s :: rest)
      = some (RaceOutcome.exitedEarly c s) := by
  induction pre with
  | nil => rfl
  | cons p pre ih =>
    have hp : p = ProbeEvent.attemptFail := hpre p (List.mem_cons_self p pre)
    subst hp
    exact ih fun q hq => hpre q (List.mem_cons_of_mem _ hq)

/-! ## Claims about acquisition and supervision -/


/-- C3 (counterexample): at run time a cached binary that is a non-empty
regular file but **not** executable (non-Windows) is accepted anyway and the
resolution chain returns it without network access — the claimed
"and is executable" conjunct of the acceptance condition is not tested by
`ensureDownloadedBackend`'s cache check. -/
theorem cache_executable_claim_refuted :
    cacheEntryAccepted nonExecCacheEnv = true ∧
    specCacheAccepted nonExecCacheEnv = false ∧
    resolveBackendCommand nonExecCacheEnv
      = (Except.ok (some ⟨cacheTarget nonExecCacheEnv, [], false⟩), ⟨true, false, false⟩) := by
  decide

/-- C3 (amended): the run-time cache check of `ensureDownloadedBackend`
accepts the entry iff it exists, is a regular file, and is non-empty — the
executability requirement is enforced only by the install script's
`ensureExecutableExists`; and when such a cache entry exists and neither an
explicit path nor the environment override is set, resolution returns the
cached path `<cache-dir>/backend/<version>/<platform-arch>/<name>` with no
network access. -/
theorem cache_acceptance_and_resolution (e : AcqEnv) :
    (cacheEntryAccepted e = true ↔
      ∃ info, e.cacheStat = some info ∧ info.isFile = true ∧ 0 < info.size) ∧
    ensureExecutableExists e.isWin32 e.cacheStat = specCacheAccepted e ∧
    (e.backendPath = none → e.envBackendPath = "" → cacheEntryAccepted e = true →
      resolveBackendCommand e
        = (Except.ok (some ⟨cacheTarget e, [], false⟩), ⟨true, false, false⟩)) := by
  refine ⟨?_, ?_, fun h1 h2 h3 => resolve_cache_hit e h1 h2 h3⟩
  · cases hst : e.cacheStat with
    | none => simp [cacheEntryAccepted, hst]
    | some info =>
      simp [cacheEntryAccepted, hst]
  · cases hst : e.cacheStat <;> simp [ensureExecutableExists, specCacheAccepted, hst]

/-- C3 (witness). -/
theorem cache_acceptance_and_resolution_witness :
    resolveBackendCommand
        ⟨none, "", true, false, "/cache", "1.2.0", "linux-x64", false,
          some ⟨true, 10, true⟩, "", "", false, none, none, false⟩
      = (Except.ok (some ⟨cacheTarget
          ⟨none, "", true, false, "/cache", "1.2.0", "linux-x64", false,
            some ⟨true, 10, true⟩, "", "", false, none, none, false⟩, [], false⟩),
          ⟨true, false, false⟩) :=
  (cache_acceptance_and_resolution _).2.2 rfl rfl (by decide)


/-- C4 (counterexample): when the run-time download fails, the caller of the
resolution chain receives a thrown error, not `null` — there is no
`try`/`catch` between `fetch` and `resolveBackendCommand`'s caller. -/
theorem download_failure_null_claim_refuted :
    (resolveBackendCommand failingDownloadEnv).1 = Except.error "Failed to download backend" ∧
    (resolveBackendCommand failingDownloadEnv).1 ≠ Except.ok none := by
  decide

/-- C4 (amended): a run-time download failure propagates out of
`resolveBackendCommand` as an error (fatal to startup); `null` is returned
only when downloading is disallowed, skipped, or unconfigured.  In the
install step a download failure is a hard failure exactly under the
strict-mode flag and a warning otherwise. -/
theorem download_failure_propagation (e : AcqEnv) (ie : InstallEnv)
    (h1 : e.backendPath = none) (h2 : e.envBackendPath = "")
    (h3 : cacheEntryAccepted e = false) (h4 : e.allowBackendDownload = true)
    (h5 : e.skipDownloadEnv = false)
    (h6 : (e.directUrl == "" && e.releaseBase == "") = false) (h7 : e.downloadOk = false)
    (i1 : ie.skipEnv = false) (i2 : ensureExecutableExists ie.isWin32 ie.cacheStat = false)
    (i3 : (!ie.haveDirectUrl && ie.releaseBase == "") = false) (i4 : ie.downloadOk = false) :
    (resolveBackendCommand e).1 = Except.error "Failed to download backend" ∧
    installBackendMain ie
      = (if ie.strict then InstallOutcome.failed else InstallOutcome.warned) := by
  refine ⟨?_, install_download_failure ie i1 i2 i3 i4⟩
  rw [resolve_download_error e h1 h2 h3 h4 h5 h6 h7]

/-- C4 (witness). -/
theorem download_failure_propagation_witness :
    (resolveBackendCommand failingDownloadEnv).1 = Except.error "Failed to download backend" ∧
    installBackendMain ⟨false, true, false, none, true, "", false, none⟩
      = (if true then InstallOutcome.failed else InstallOutcome.warned) :=
  download_failure_propagation failingDownloadEnv
    ⟨false, true, false, none, true, "", false, none⟩
    rfl rfl (by decide) rfl rfl (by decide) rfl rfl (by decide) (by decide) rfl

/-- C7: the resolution chain honours strict priority order: an explicit
caller path wins with no cache read, no network access and no PATH scan;
the environment path wins over everything below it likewise; the accepted
cache entry wins with no network access; a successful download wins before
any PATH scan; the PATH lookup wins before the cargo fallback; the cargo
fallback is used only when everything above is absent. -/
theorem resolution_priority (e : AcqEnv) :
    (∀ p, e.backendPath = some p →
      resolveBackendCommand e = (Except.ok (some ⟨p, [], false⟩), noEffects)) ∧
    (e.backendPath = none → e.envBackendPath ≠ "" →
      resolveBackendCommand e = (Except.ok (some ⟨e.envBackendPath, [], false⟩), noEffects)) ∧
    (e.backendPath = none → e.envBackendPath = "" → cacheEntryAccepted e = true →
      resolveBackendCommand e
        = (Except.ok (some ⟨cacheTarget e, [], false⟩), ⟨true, false, false⟩)) ∧
    (e.backendPath = none → e.envBackendPath = "" → cacheEntryAccepted e = false →
      e.allowBackendDownload = true → e.skipDownloadEnv = false →
      (e.directUrl == "" && e.releaseBase == "") = false → e.downloadOk = true →
      resolveBackendCommand e
        = (Except.ok (some ⟨cacheTarget e, [], false⟩), ⟨true, true, false⟩)) ∧
    (e.backendPath = none → e.envBackendPath = "" →
      ensureDownloadedBackend e = (Except.ok none, ⟨true, false, false⟩) →
      ∀ q, e.pathLookup = some q →
      resolveBackendCommand e = (Except.ok (some ⟨q, [], false⟩), ⟨true, false, true⟩)) ∧
    (e.backendPath = none → e.envBackendPath = "" →
      ensureDownloadedBackend e = (Except.ok none, ⟨true, false, false⟩) →
      e.pathLookup = none → ∀ cg, e.cargoPath = some cg → e.tauriDirExists = true →
      resolveBackendCommand e
        = (Except.ok (some ⟨cg, ["run", "--bin", "codex_monitor_web", "--"], true⟩),
            ⟨true, false, true⟩)) :=
  ⟨fun p hp => resolve_explicit e p hp,
   fun h1 h2 => resolve_envPath e h1 h2,
   fun h1 h2 h3 => resolve_cache_hit e h1 h2 h3,
   fun h1 h2 h3 h4 h5 h6 h7 => resolve_download_ok e h1 h2 h3 h4 h5 h6 h7,
   fun h1 h2 h3 q h4 => resolve_path_lookup e h1 h2 h3 q h4,
   fun h1 h2 h3 h4 cg h5 h6 => resolve_cargo e h1 h2 h3 h4 cg h5 h6⟩

/-- C7 (witness): the explicit path wins even when every lower-priority
source is present; absent the explicit path the environment path wins. -/
theorem resolution_priority_witness :
    resolveBackendCommand
        ⟨some "/opt/backend", "/env/backend", true, false, "/cache", "1.2.0", "linux-x64",
          false, some ⟨true, 10, true⟩, "https://u", "", true, some "/path/bin",
          some "/usr/bin/cargo", true⟩
      = (Except.ok (some ⟨"/opt/backend", [], false⟩), noEffects) ∧
    resolveBackendCommand
        ⟨none, "/env/backend", true, false, "/cache", "1.2.0", "linux-x64",
          false, some ⟨true, 10, true⟩, "https://u", "", true, some "/path/bin",
          some "/usr/bin/cargo", true⟩
      = (Except.ok (some ⟨"/env/backend", [], false⟩), noEffects) :=
  ⟨(resolution_priority _).1 "/opt/backend" rfl,
   (resolution_priority _).2.1 rfl (by decide)⟩

/-- C9: whenever the backend process exits before any TCP probe attempt has
succeeded — after any number of failed attempts — the readiness race settles
as an early-exit failure, regardless of what the probe would do afterwards. -/
theorem probe_fails_on_exit_before_success (pre rest : List ProbeEvent) (c : Option Int)
    (s : Bool) (hpre : ∀ e ∈ pre, e = ProbeEvent.attemptFail) :
    raceResult (pre ++ ProbeEvent.backendExit c s :: rest)
      = some (RaceOutcome.exitedEarly c s) :=
  raceResult_exit_first pre c s rest hpre

/-- C9 (witness): two failed probe attempts, then the backend exits; a
would-be later success does not change the outcome. -/
theorem probe_fails_on_exit_before_success_witness :
    raceResult ([ProbeEvent.attemptFail, ProbeEvent.attemptFail]
        ++ ProbeEvent.backendExit (some 2) false :: [ProbeEvent.attemptSuccess])
      = some (RaceOutcome.exitedEarly (some 2) false) :=
  probe_fails_on_exit_before_success _ _ _ _ (by decide)

/-- C2 (counterexample): backend exits with code 3 before the probe ever
succeeds — startup fails and the frontend is never started, but the
supervisor's exit code is 1 (`process.exit(1)` in the readiness catch
block), not the claimed 3. -/
theorem startup_exit_code_claim_refuted :
    (supervisorStartup [ProbeEvent.attemptFail, ProbeEvent.backendExit (some 3) false]).failed
        = true ∧
    (supervisorStartup [ProbeEvent.attemptFail,
        ProbeEvent.backendExit (some 3) false]).frontendStarted = false ∧
    (supervisorStartup [ProbeEvent.attemptFail,
        ProbeEvent.backendExit (some 3) false]).exitCode ≠ some 3 := by
  decide

/-- C2 (amended): if the backend exits (with any code) before the probe ever
succeeds, overall startup fails, the supervisor exits with code 1, and the
dependent frontend process is never started. -/
theorem startup_fails_with_exit_one (pre rest : List ProbeEvent) (c : Option Int) (s : Bool)
    (hpre : ∀ e ∈ pre, e = ProbeEvent.attemptFail) :
    supervisorStartup (pre ++ ProbeEvent.backendExit c s :: rest) = ⟨true, some 1, false⟩ := by
  rw [supervisorStartup, raceResult_exit_first pre c s rest hpre]

/-- C2 (witness). -/
theorem startup_fails_with_exit_one_witness :
    supervisorStartup ([ProbeEvent.attemptFail]
        ++ ProbeEvent.backendExit (some 3) false :: []) = ⟨true, some 1, false⟩ :=
  startup_fails_with_exit_one _ _ _ _ (by decide)

/-! ## Helper lemmas: pending-call accounting

The accounting invariant: settlements performed so far plus the ids still
pending are, as a multiset, exactly the ids allocated so far plus the ids
pending at the start.  Together with distinctness of allocated ids this
gives at-most-once settlement, and exactly-once on runs that drain the
pending map. -/

theorem step_state_throws (a b : Nat → Bool) (st : RpcState) (e : RpcEvent) :
    (step a st e).1 = (step b st e).1 := by
  cases e <;> rfl

theorem step_balance (throws : Nat → Bool) (st : RpcState) (e : RpcEvent) :
    (((step throws st e).2.settles.map Prod.fst : List Nat) : Multiset Nat)
        + ((step throws st e).1.pending : List Nat)
      = ((allocOf st e : List Nat) : Multiset Nat) + (st.pending : List Nat) := by
  cases e with
  | connectEv => simp [step, allocOf, tryConnect, noOut]; split_ifs <;> simp [noOut]
  | openEv => simp [step, allocOf, noOut]; split_ifs <;> simp [noOut]
  | errorEv => simp [step, allocOf, noOut]; split_ifs <;> simp [noOut]
  | closeEv => simp [step, allocOf, List.map_map, Function.comp_def]
  | disconnectEv => simp [step, allocOf, noOut]
  | callEv s =>
    by_cases hop : st.socketOpen = true
    · cases s with
      | true => simp [step, allocOf, hop]
      | false =>
        simp [step, allocOf, hop, ← Multiset.coe_add]
        rw [add_comm]
        rfl
    · simp at hop
      simp [step, allocOf, hop, noOut]
  | replyEv id isErr =>
    by_cases hmem : id ∈ st.pending
    · simp [step, hmem, allocOf, ← Multiset.coe_erase, Multiset.singleton_add]
    · simp [step, hmem, allocOf, noOut]
  | notifyEv t => simp [step, allocOf]
  | timeoutEv id =>
    by_cases hmem : id ∈ st.pending
    · simp [step, hmem, allocOf, ← Multiset.coe_erase, Multiset.singleton_add]
    · simp [step, hmem, allocOf, noOut]
  | subscribeEv t h => simp [step, allocOf, tryConnect, noOut]; split_ifs <;> simp [noOut]
  | unsubscribeEv t h => simp [step, allocOf, noOut]
  | reconnectFire =>
    simp [step, allocOf, tryConnect, noOut]
    split_ifs <;> simp [noOut]

theorem runRpc_balance (throws : Nat → Bool) (evs : List RpcEvent) : ∀ st : RpcState,
    (((runRpc throws st evs).settles.map Prod.fst : List Nat) : Multiset Nat)
        + ((runRpc throws st evs).state.pending : List Nat)
      = (((runRpc throws st evs).allocated : List Nat) : Multiset Nat)
        + (st.pending : List Nat) := by
  induction evs with
  | nil => intro st; simp [runRpc]
  | cons e evs ih =>
    intro st
    have hstep := step_balance throws st e
    have hrec := ih (step throws st e).1
    simp only [runRpc, List.map_append, ← Multiset.coe_add] at *
    calc (((step throws st e).2.settles.map Prod.fst : List Nat) : Multiset Nat)
          + ((runRpc throws (step throws st e).1 evs).settles.map Prod.fst : List Nat)
          + ((runRpc throws (step throws st e).1 evs).state.pending : List Nat)
        = (((step throws st e).2.settles.map Prod.fst : List Nat) : Multiset Nat)
          + (((runRpc throws (step throws st e).1 evs).allocated : List Nat)
              + ((step throws st e).1.pending : List Nat)) := by
          rw [add_assoc, hrec]
      _ = (((runRpc throws (step throws st e).1 evs).allocated : List Nat) : Multiset Nat)
          + ((((step throws st e).2.settles.map Prod.fst : List Nat) : Multiset Nat)
              + ((step throws st e).1.pending : List Nat)) := by
          rw [add_left_comm]
      _ = (((runRpc throws (step throws st e).1 evs).allocated : List Nat) : Multiset Nat)
          + (((allocOf st e : List Nat) : Multiset Nat) + (st.pending : List Nat)) := by
          rw [hstep]
      _ = ((allocOf st e : List Nat) : Multiset Nat)
          + ((runRpc throws (step throws st e).1 evs).allocated : List Nat)
          + (st.pending : List Nat) := by
          rw [add_left_comm, add_assoc]

theorem step_nextId_le (throws : Nat → Bool) (st : RpcState) (e : RpcEvent) :
    st.nextId ≤ (step throws st e).1.nextId := by
  cases e <;> simp [step, tryConnect] <;> split_ifs <;> simp

theorem alloc_spec (throws : Nat → Bool) (st : RpcState) (e : RpcEvent) :
    allocOf st e = [] ∨
      (allocOf st e = [st.nextId] ∧ (step throws st e).1.nextId = st.nextId + 1) := by
  cases e with
  | callEv s =>
    by_cases hop : st.socketOpen = true
    · right
      cases s <;> simp [allocOf, step, hop]
    · left
      simp at hop
      simp [allocOf, hop]
  | connectEv => left; rfl
  | openEv => left; rfl
  | errorEv => left; rfl
  | closeEv => left; rfl
  | disconnectEv => left; rfl
  | replyEv id isErr => left; rfl
  | notifyEv t => left; rfl
  | timeoutEv id => left; rfl
  | subscribeEv t h => left; rfl
  | unsubscribeEv t h => left; rfl
  | reconnectFire => left; rfl

theorem runRpc_allocated (throws : Nat → Bool) (evs : List RpcEvent) : ∀ st : RpcState,
    st.nextId ≤ (runRpc throws st evs).state.nextId ∧
    (∀ i ∈ (runRpc throws st evs).allocated, st.nextId ≤ i) ∧
    (runRpc throws st evs).allocated.Nodup := by
  induction evs with
  | nil => intro st; simp [runRpc]
  | cons e evs ih =>
    intro st
    obtain ⟨hle, hge, hnd⟩ := ih (step throws st e).1
    have hstep := step_nextId_le throws st e
    simp only [runRpc]
    rcases alloc_spec throws st e with h | ⟨h1, h2⟩
    · rw [h]
      refine ⟨le_trans hstep hle, ?_, ?_⟩
      · intro i hi
        simp only [List.nil_append] at hi
        exact le_trans hstep (hge i hi)
      · simpa using hnd
    · rw [h1]
      refine ⟨?_, ?_, ?_⟩
      · rw [h2] at hle
        omega
      · intro i hi
        simp only [List.cons_append, List.nil_append, List.mem_cons] at hi
        rcases hi with rfl | hi
        · exact le_refl _
        · have := hge i hi
          rw [h2] at this
          omega
      · simp only [List.cons_append, List.nil_append, List.nodup_cons]
        refine ⟨?_, hnd⟩
        intro hmem
        have := hge _ hmem
        rw [h2] at this
        omega

/-- The settlements of a full run plus the still-pending ids are, as a
multiset, exactly the allocated ids; hence no id is ever settled twice, and
every allocated id is settled once its pending entry is gone. -/
theorem runRpc_accounting (throws : Nat → Bool) (evs : List RpcEvent) :
    (((runRpc throws initRpcState evs).settles.map Prod.fst : List Nat) : Multiset Nat)
        + ((runRpc throws initRpcState evs).state.pending : List Nat)
      = (((runRpc throws initRpcState evs).allocated : List Nat) : Multiset Nat) := by
  have h := runRpc_balance throws evs initRpcState
  have e0 : ((initRpcState.pending : List Nat) : Multiset Nat) = 0 := rfl
  rw [e0, add_zero] at h
  exact h

theorem runRpc_sum_nodup (throws : Nat → Bool) (evs : List RpcEvent) :
    Multiset.Nodup
      ((((runRpc throws initRpcState evs).settles.map Prod.fst : List Nat) : Multiset Nat)
        + (((runRpc throws initRpcState evs).state.pending : List Nat) : Multiset Nat)) := by
  rw [runRpc_accounting]
  exact Multiset.coe_nodup.mpr (runRpc_allocated throws evs initRpcState).2.2

theorem stateAfter_pending_nodup (evs : List RpcEvent) :
    (stateAfter evs).pending.Nodup := by
  have h := runRpc_sum_nodup thr0 evs
  rw [Multiset.nodup_add] at h
  exact Multiset.coe_nodup.mp h.2.1

/-! ## Claims about the RPC session client -/

/-- C5: over any event sequence, no call id is ever settled twice (a call's
promise is never resolved and rejected, nor settled more than once), and on
any run that drains the pending map every allocated call id has been
settled exactly once — by reply, error reply, timeout, send failure, or
disconnect rejection. -/
theorem call_settles_exactly_once (throws : Nat → Bool) (evs : List RpcEvent) :
    ((runRpc throws initRpcState evs).settles.map Prod.fst).Nodup ∧
    ((runRpc throws initRpcState evs).state.pending = [] →
      ∀ id ∈ (runRpc throws initRpcState evs).allocated,
        ((runRpc throws initRpcState evs).settles.map Prod.fst).count id = 1) := by
  have hsum := runRpc_sum_nodup throws evs
  rw [Multiset.nodup_add] at hsum
  refine ⟨Multiset.coe_nodup.mp hsum.1, ?_⟩
  intro hdrain id hid
  have hacc := runRpc_accounting throws evs
  rw [hdrain] at hacc
  have e0 : (([] : List Nat) : Multiset Nat) = 0 := rfl
  rw [e0, add_zero] at hacc
  have hcnt : ((runRpc throws initRpcState evs).settles.map Prod.fst).count id
      = ((runRpc throws initRpcState evs).allocated).count id := by
    have := congrArg (Multiset.count id) hacc
    simpa [Multiset.coe_count] using this
  rw [hcnt]
  exact List.count_eq_one_of_mem (runRpc_allocated throws evs initRpcState).2.2 hid

/-- C5 (witness): a connect, an issued call, and its reply — the drained run
settles the single allocated id exactly once. -/
theorem call_settles_exactly_once_witness :
    ∀ id ∈ (runRpc thr0 initRpcState
        [RpcEvent.connectEv, RpcEvent.openEv, RpcEvent.callEv false,
          RpcEvent.replyEv 1 false]).allocated,
      ((runRpc thr0 initRpcState
        [RpcEvent.connectEv, RpcEvent.openEv, RpcEvent.callEv false,
          RpcEvent.replyEv 1 false]).settles.map Prod.fst).count id = 1 :=
  (call_settles_exactly_once thr0
      [RpcEvent.connectEv, RpcEvent.openEv, RpcEvent.callEv false,
        RpcEvent.replyEv 1 false]).2 (by decide)

/-- C6: when the timeout for a pending call id fires, the call settles with
exactly the timeout rejection and its pending entry is removed on the spot;
a reply for that id arriving afterwards settles nothing and leaves the
client state unchanged. -/
theorem timeout_then_late_reply_ignored (evs : List RpcEvent) (id : Nat) (isErr : Bool)
    (h : id ∈ (stateAfter evs).pending) :
    (step thr0 (stateAfter evs) (RpcEvent.timeoutEv id)).2.settles
        = [(id, SettleKind.timedOut)] ∧
    id ∉ (step thr0 (stateAfter evs) (RpcEvent.timeoutEv id)).1.pending ∧
    (step thr0 (step thr0 (stateAfter evs) (RpcEvent.timeoutEv id)).1
        (RpcEvent.replyEv id isErr)).2.settles = [] ∧
    (step thr0 (step thr0 (stateAfter evs) (RpcEvent.timeoutEv id)).1
        (RpcEvent.replyEv id isErr)).1
      = (step thr0 (stateAfter evs) (RpcEvent.timeoutEv id)).1 := by
  have hnd := stateAfter_pending_nodup evs
  have hout : id ∉ ((stateAfter evs).pending.erase id) := hnd.not_mem_erase
  refine ⟨?_, ?_, ?_, ?_⟩
  · simp [step, h]
  · simpa [step, h] using hout
  · simp [step, h, hout, noOut]
  · simp [step, h, hout]

/-- C6 (witness). -/
theorem timeout_then_late_reply_ignored_witness :
    (step thr0 (stateAfter [RpcEvent.connectEv, RpcEvent.openEv, RpcEvent.callEv false])
        (RpcEvent.timeoutEv 1)).2.settles = [(1, SettleKind.timedOut)] ∧
    1 ∉ (step thr0 (stateAfter [RpcEvent.connectEv, RpcEvent.openEv, RpcEvent.callEv false])
        (RpcEvent.timeoutEv 1)).1.pending ∧
    (step thr0 (step thr0
        (stateAfter [RpcEvent.connectEv, RpcEvent.openEv, RpcEvent.callEv false])
        (RpcEvent.timeoutEv 1)).1 (RpcEvent.replyEv 1 false)).2.settles = [] ∧
    (step thr0 (step thr0
        (stateAfter [RpcEvent.connectEv, RpcEvent.openEv, RpcEvent.callEv false])
        (RpcEvent.timeoutEv 1)).1 (RpcEvent.replyEv 1 false)).1
      = (step thr0 (stateAfter [RpcEvent.connectEv, RpcEvent.openEv, RpcEvent.callEv false])
          (RpcEvent.timeoutEv 1)).1 :=
  timeout_then_late_reply_ignored
    [RpcEvent.connectEv, RpcEvent.openEv, RpcEvent.callEv false] 1 false (by decide)

/-- C10: `disconnect()` itself leaves the pending map untouched and sets the
intentional-close flag, and the close event it triggers rejects every
pending call with the disconnection error — the `onclose` handler runs
`rejectAllPending` unconditionally, so rejection of pendings is not limited
to unexpected disconnects; no reconnection is scheduled afterwards. -/
theorem disconnect_rejects_all_pending (st : RpcState) :
    (step thr0 st RpcEvent.disconnectEv).1.pending = st.pending ∧
    (step thr0 st RpcEvent.disconnectEv).1.intentionalClose = true ∧
    (step thr0 (step thr0 st RpcEvent.disconnectEv).1 RpcEvent.closeEv).2.settles
      = st.pending.map (fun i => (i, SettleKind.disconnected)) ∧
    (step thr0 (step thr0 st RpcEvent.disconnectEv).1 RpcEvent.closeEv).1.pending = [] ∧
    (step thr0 (step thr0 st RpcEvent.disconnectEv).1 RpcEvent.closeEv).1.reconnectScheduled
      = false := by
  refine ⟨rfl, rfl, ?_, rfl, ?_⟩ <;> simp [step]


/-- C1 (counterexample): a client holding one pending call and no
subscriptions at the moment of an unexpected close does **not** reconnect:
`onclose` runs `rejectAllPending` before `scheduleReconnect`, so when the
reconnect timer fires both maps are empty and `connect()` is never called —
refuting "reconnect iff at least one subscription or pending call exists at
the moment of closure". -/
theorem reconnect_claim_refuted :
    ¬ ((closeThenFire
          (stateAfter [RpcEvent.connectEv, RpcEvent.openEv, RpcEvent.callEv false]) = true) ↔
        ((stateAfter [RpcEvent.connectEv, RpcEvent.openEv,
            RpcEvent.callEv false]).listeners ≠ [] ∨
         (stateAfter [RpcEvent.connectEv, RpcEvent.openEv,
            RpcEvent.callEv false]).pending ≠ [])) := by
  decide

/-- C1 (amended): after an unexpected close (intentional-close flag unset,
no connect attempt in flight), the scheduled reconnect timer initiates a
connection attempt iff at least one subscription exists at the moment of
closure; pending calls never cause a reconnect, because the close handler
rejects and removes them all before the timer's check runs.  In particular
an idle client never reconnects. -/
theorem reconnect_iff_subscription (st : RpcState)
    (h1 : st.intentionalClose = false) (h2 : st.connecting = false) :
    closeThenFire st = true ↔ st.listeners ≠ [] := by
  cases hl : st.listeners with
  | nil => simp [closeThenFire, step, tryConnect, h1, h2, hl, noOut]
  | cons p rest => simp [closeThenFire, step, tryConnect, h1, h2, hl, noOut]

/-- C1 (witness): a client with one subscription reconnects after an
unexpected close. -/
theorem reconnect_iff_subscription_witness :
    closeThenFire (stateAfter [RpcEvent.connectEv, RpcEvent.openEv,
        RpcEvent.subscribeEv "thread/event" 5]) = true ↔
      (stateAfter [RpcEvent.connectEv, RpcEvent.openEv,
        RpcEvent.subscribeEv "thread/event" 5]).listeners ≠ [] :=
  reconnect_iff_subscription _ (by decide) (by decide)

/-! ## Helper lemmas: the notification topic map

`regStep`/`registeredAfter` recompute, from the event history alone, which
handlers are registered for a topic: first-subscription order, deduplicated
(set semantics), minus unsubscribed handlers.  The coupling lemma shows the
client's topic map always reads back exactly this list. -/




theorem lookupTopic_eq_nil_of_not_mem (ls : List (String × List Nat)) (t : String)
    (h : ∀ p ∈ ls, p.1 ≠ t) : lookupTopic ls t = [] := by
  induction ls with
  | nil => rfl
  | cons p rest ih =>
    obtain ⟨s, hs⟩ := p
    have hp : s ≠ t := h (s, hs) (List.mem_cons_self _ rest)
    simp only [lookupTopic, beq_iff_eq, if_neg hp]
    exact ih fun q hq => h q (List.mem_cons_of_mem _ hq)

theorem lookupTopic_addHandler (ls : List (String × List Nat)) (t' t : String) (h : Nat) :
    lookupTopic (addHandler ls t' h) t
      = if t' == t then
          (if h ∈ lookupTopic ls t then lookupTopic ls t else lookupTopic ls t ++ [h])
        else lookupTopic ls t := by
  induction ls with
  | nil =>
    by_cases he : t' = t
    · subst he
      simp [addHandler, lookupTopic]
    · simp [addHandler, lookupTopic, he]
  | cons p rest ih =>
    obtain ⟨s, hs⟩ := p
    by_cases hst : s = t'
    · subst hst
      by_cases het : s = t
      · subst het
        simp [addHandler, lookupTopic]
      · simp [addHandler, lookupTopic, het]
    · by_cases het : s = t
      · subst het
        have ht : t' ≠ s := fun hc => hst hc.symm
        simp [addHandler, lookupTopic, hst, ht]
      · simp [addHandler, lookupTopic, hst, het, ih]

theorem lookupTopic_removeHandler (ls : List (String × List Nat)) (t' t : String) (h : Nat)
    (hk : (ls.map Prod.fst).Nodup) :
    lookupTopic (removeHandler ls t' h) t
      = if t' == t then (lookupTopic ls t).filter (fun x => x != h)
        else lookupTopic ls t := by
  induction ls with
  | nil =>
    by_cases he : t' = t <;> simp [removeHandler, lookupTopic, he]
  | cons p rest ih =>
    obtain ⟨s, hs⟩ := p
    obtain ⟨hnotin, hnd⟩ := List.nodup_cons.mp hk
    by_cases hst : s = t'
    · subst hst
      by_cases hemp : hs.filter (fun x => x != h) = []
      · by_cases het : s = t
        · subst het
          have hnil : lookupTopic rest s = [] := by
            refine lookupTopic_eq_nil_of_not_mem rest s fun q hq hc => hnotin ?_
            have hm : q.1 ∈ List.map Prod.fst rest := List.mem_map_of_mem Prod.fst hq
            rwa [hc] at hm
          simp [removeHandler, lookupTopic, hemp, hnil]
        · simp [removeHandler, lookupTopic, hemp, het]
      · by_cases het : s = t
        · subst het
          simp [removeHandler, lookupTopic, hemp]
        · simp [removeHandler, lookupTopic, hemp, het]
    · by_cases het : s = t
      · subst het
        have ht : t' ≠ s := fun hc => hst hc.symm
        simp [removeHandler, lookupTopic, hst, ht]
      · simp [removeHandler, lookupTopic, hst, het, ih hnd]

theorem addHandler_keys (ls : List (String × List Nat)) (t : String) (h : Nat) :
    (addHandler ls t h).map Prod.fst
      = if t ∈ ls.map Prod.fst then ls.map Prod.fst else ls.map Prod.fst ++ [t] := by
  induction ls with
  | nil => simp [addHandler]
  | cons p rest ih =>
    obtain ⟨s, hs⟩ := p
    by_cases hst : s = t
    · subst hst
      simp [addHandler]
    · have ht : t ≠ s := fun hc => hst hc.symm
      simp only [addHandler, beq_iff_eq, if_neg hst, List.map_cons, ih]
      by_cases hmem : t ∈ rest.map Prod.fst <;>
        simp [hmem, ht]

theorem addHandler_keys_nodup (ls : List (String × List Nat)) (t : String) (h : Nat)
    (hk : (ls.map Prod.fst).Nodup) : ((addHandler ls t h).map Prod.fst).Nodup := by
  rw [addHandler_keys]
  by_cases hmem : t ∈ ls.map Prod.fst
  · simpa [hmem] using hk
  · simp only [hmem, if_false]
    rw [List.nodup_append]
    exact ⟨hk, List.nodup_singleton _,
      fun a ha hb => hmem ((List.mem_singleton.mp hb) ▸ ha)⟩

theorem removeHandler_keys_sublist (ls : List (String × List Nat)) (t : String) (h : Nat) :
    ((removeHandler ls t h).map Prod.fst).Sublist (ls.map Prod.fst) := by
  induction ls with
  | nil => simp [removeHandler]
  | cons p rest ih =>
    obtain ⟨s, hs⟩ := p
    by_cases hst : s = t
    · subst hst
      by_cases hemp : hs.filter (fun x => x != h) = []
      · simp only [removeHandler, beq_self_eq_true, if_true, hemp, List.map_cons,
          eq_self_iff_true]
        exact List.sublist_cons_self _ _
      · simp [removeHandler, hemp]
    · simp only [removeHandler, beq_iff_eq, if_neg hst, List.map_cons]
      exact ih.cons₂ _

theorem removeHandler_keys_nodup (ls : List (String × List Nat)) (t : String) (h : Nat)
    (hk : (ls.map Prod.fst).Nodup) : ((removeHandler ls t h).map Prod.fst).Nodup :=
  (removeHandler_keys_sublist ls t h).nodup hk

theorem addHandler_entries (ls : List (String × List Nat)) (t : String) (h : Nat)
    (he : ∀ p ∈ ls, p.2 ≠ [] ∧ p.2.Nodup) :
    ∀ p ∈ addHandler ls t h, p.2 ≠ [] ∧ p.2.Nodup := by
  induction ls with
  | nil =>
    intro p hp
    simp only [addHandler, List.mem_cons, List.not_mem_nil, or_false] at hp
    subst hp
    simp
  | cons q rest ih =>
    obtain ⟨s, hs⟩ := q
    intro p hp
    by_cases hst : s = t
    · subst hst
      simp only [addHandler, beq_self_eq_true, if_true, List.mem_cons] at hp
      rcases hp with rfl | hp
      · obtain ⟨hne, hnd⟩ := he (s, hs) (List.mem_cons_self _ _)
        by_cases hmem : h ∈ hs
        · simp only [hmem, if_true]
          exact ⟨hne, hnd⟩
        · simp only [hmem, if_false]
          refine ⟨by simp, ?_⟩
          rw [List.nodup_append]
          exact ⟨hnd, List.nodup_singleton _,
            fun a ha hb => hmem ((List.mem_singleton.mp hb) ▸ ha)⟩
      · exact he p (List.mem_cons_of_mem _ hp)
    · simp only [addHandler, beq_iff_eq, if_neg hst, List.mem_cons] at hp
      rcases hp with rfl | hp
      · exact he (s, hs) (List.mem_cons_self _ _)
      · exact ih (fun q hq => he q (List.mem_cons_of_mem _ hq)) p hp

theorem removeHandler_entries (ls : List (String × List Nat)) (t : String) (h : Nat)
    (he : ∀ p ∈ ls, p.2 ≠ [] ∧ p.2.Nodup) :
    ∀ p ∈ removeHandler ls t h, p.2 ≠ [] ∧ p.2.Nodup := by
  induction ls with
  | nil => intro p hp; simp [removeHandler] at hp
  | cons q rest ih =>
    obtain ⟨s, hs⟩ := q
    intro p hp
    by_cases hst : s = t
    · subst hst
      by_cases hemp : hs.filter (fun x => x != h) = []
      · simp only [removeHandler, beq_self_eq_true, if_true, hemp,
          eq_self_iff_true] at hp
        exact he p (List.mem_cons_of_mem _ hp)
      · simp only [removeHandler, beq_self_eq_true, if_true, hemp, if_false,
          List.mem_cons] at hp
        rcases hp with rfl | hp
        · exact ⟨hemp, (he (s, hs) (List.mem_cons_self _ _)).2.filter _⟩
        · exact he p (List.mem_cons_of_mem _ hp)
    · simp only [removeHandler, beq_iff_eq, if_neg hst, List.mem_cons] at hp
      rcases hp with rfl | hp
      · exact he (s, hs) (List.mem_cons_self _ _)
      · exact ih (fun q hq => he q (List.mem_cons_of_mem _ hq)) p hp

theorem step_listeners_keys_nodup (throws : Nat → Bool) (st : RpcState) (e : RpcEvent)
    (hk : (st.listeners.map Prod.fst).Nodup) :
    (((step throws st e).1.listeners).map Prod.fst).Nodup := by
  cases e with
  | connectEv => simp only [step, tryConnect]; split_ifs <;> exact hk
  | openEv => simp only [step]; split_ifs <;> exact hk
  | errorEv => simp only [step]; split_ifs <;> exact hk
  | closeEv => exact hk
  | disconnectEv => exact hk
  | callEv s =>
    simp only [step]
    split_ifs <;> exact hk
  | replyEv id isErr => simp only [step]; split_ifs <;> exact hk
  | notifyEv t => exact hk
  | timeoutEv id => simp only [step]; split_ifs <;> exact hk
  | subscribeEv t h =>
    simp only [step, tryConnect]
    split_ifs <;> exact addHandler_keys_nodup st.listeners t h hk
  | unsubscribeEv t h => exact removeHandler_keys_nodup st.listeners t h hk
  | reconnectFire =>
    simp only [step, tryConnect]
    split_ifs <;> exact hk

theorem step_listeners_entries (throws : Nat → Bool) (st : RpcState) (e : RpcEvent)
    (he : ∀ p ∈ st.listeners, p.2 ≠ [] ∧ p.2.Nodup) :
    ∀ p ∈ (step throws st e).1.listeners, p.2 ≠ [] ∧ p.2.Nodup := by
  cases e with
  | connectEv => simp only [step, tryConnect]; split_ifs <;> exact he
  | openEv => simp only [step]; split_ifs <;> exact he
  | errorEv => simp only [step]; split_ifs <;> exact he
  | closeEv => exact he
  | disconnectEv => exact he
  | callEv s =>
    simp only [step]
    split_ifs <;> exact he
  | replyEv id isErr => simp only [step]; split_ifs <;> exact he
  | notifyEv t => exact he
  | timeoutEv id => simp only [step]; split_ifs <;> exact he
  | subscribeEv t h =>
    simp only [step, tryConnect]
    split_ifs <;> exact addHandler_entries st.listeners t h he
  | unsubscribeEv t h => exact removeHandler_entries st.listeners t h he
  | reconnectFire =>
    simp only [step, tryConnect]
    split_ifs <;> exact he

theorem step_lookup (throws : Nat → Bool) (st : RpcState) (e : RpcEvent) (t : String)
    (hk : (st.listeners.map Prod.fst).Nodup) :
    lookupTopic (step throws st e).1.listeners t
      = regStep t (lookupTopic st.listeners t) e := by
  cases e with
  | connectEv => simp only [step, tryConnect, regStep]; split_ifs <;> rfl
  | openEv => simp only [step, regStep]; split_ifs <;> rfl
  | errorEv => simp only [step, regStep]; split_ifs <;> rfl
  | closeEv => rfl
  | disconnectEv => rfl
  | callEv s =>
    simp only [step, regStep]
    split_ifs <;> rfl
  | replyEv id isErr => simp only [step, regStep]; split_ifs <;> rfl
  | notifyEv t2 => rfl
  | timeoutEv id => simp only [step, regStep]; split_ifs <;> rfl
  | subscribeEv t2 h =>
    have hls : (step throws st (RpcEvent.subscribeEv t2 h)).1.listeners
        = addHandler st.listeners t2 h := by
      simp only [step, tryConnect]
      split_ifs <;> rfl
    rw [hls, lookupTopic_addHandler]
    rfl
  | unsubscribeEv t2 h =>
    exact lookupTopic_removeHandler st.listeners t2 t h hk
  | reconnectFire =>
    simp only [step, tryConnect, regStep]
    split_ifs <;> rfl

theorem runRpc_listeners_keys_nodup (throws : Nat → Bool) (evs : List RpcEvent) :
    ∀ st : RpcState, (st.listeners.map Prod.fst).Nodup →
      (((runRpc throws st evs).state.listeners).map Prod.fst).Nodup := by
  induction evs with
  | nil => intro st hk; exact hk
  | cons e evs ih =>
    intro st hk
    exact ih _ (step_listeners_keys_nodup throws st e hk)

theorem runRpc_listeners_entries (throws : Nat → Bool) (evs : List RpcEvent) :
    ∀ st : RpcState, (∀ p ∈ st.listeners, p.2 ≠ [] ∧ p.2.Nodup) →
      ∀ p ∈ (runRpc throws st evs).state.listeners, p.2 ≠ [] ∧ p.2.Nodup := by
  induction evs with
  | nil => intro st he; exact he
  | cons e evs ih =>
    intro st he
    exact ih _ (step_listeners_entries throws st e he)

theorem runRpc_lookup (throws : Nat → Bool) (evs : List RpcEvent) :
    ∀ st : RpcState, ∀ t : String, (st.listeners.map Prod.fst).Nodup →
      lookupTopic (runRpc throws st evs).state.listeners t
        = evs.foldl (regStep t) (lookupTopic st.listeners t) := by
  induction evs with
  | nil => intro st t _; rfl
  | cons e evs ih =>
    intro st t hk
    have h1 := step_lookup throws st e t hk
    have h2 := ih (step throws st e).1 t (step_listeners_keys_nodup throws st e hk)
    simp only [runRpc, List.foldl_cons]
    rw [h2, h1]

theorem regStep_nodup (t : String) (acc : List Nat) (e : RpcEvent) (h : acc.Nodup) :
    (regStep t acc e).Nodup := by
  cases e with
  | subscribeEv t2 hh =>
    simp only [regStep]
    split_ifs with h1 h2
    · exact h
    · rw [List.nodup_append]
      exact ⟨h, List.nodup_singleton _,
        fun a ha hb => h2 ((List.mem_singleton.mp hb) ▸ ha)⟩
    · exact h
  | unsubscribeEv t2 hh =>
    simp only [regStep]
    split_ifs
    · exact h.filter _
    · exact h
  | connectEv => exact h
  | openEv => exact h
  | errorEv => exact h
  | closeEv => exact h
  | disconnectEv => exact h
  | callEv s => exact h
  | replyEv id isErr => exact h
  | notifyEv t2 => exact h
  | timeoutEv id => exact h
  | reconnectFire => exact h

theorem foldl_regStep_nodup (t : String) (evs : List RpcEvent) :
    ∀ acc : List Nat, acc.Nodup → (evs.foldl (regStep t) acc).Nodup := by
  induction evs with
  | nil => exact fun acc h => h
  | cons e evs ih =>
    intro acc h
    exact ih _ (regStep_nodup t acc e h)

theorem all_keys_ne_of_lookup_nil (ls : List (String × List Nat)) (t : String)
    (he : ∀ p ∈ ls, p.2 ≠ [] ∧ p.2.Nodup) (h : lookupTopic ls t = []) :
    (ls.all fun p => p.1 != t) = true := by
  induction ls with
  | nil => rfl
  | cons q rest ih =>
    obtain ⟨s, hs⟩ := q
    by_cases hst : s = t
    · subst hst
      simp only [lookupTopic, beq_self_eq_true, if_true] at h
      exact absurd h (he (s, hs) (List.mem_cons_self _ _)).1
    · simp only [lookupTopic, beq_iff_eq, if_neg hst] at h
      simp only [List.all_cons, Bool.and_eq_true, bne_iff_ne, ne_eq]
      exact ⟨hst, ih (fun q hq => he q (List.mem_cons_of_mem _ hq)) h⟩

/-- C8: a notification dispatch invokes exactly the handlers currently
registered for its topic — the registration-order, set-deduplicated,
unsubscribe-pruned list recomputed from the event history — each exactly
once (the list is duplicate-free), passing each handler's own
thrown/not-thrown outcome along without mutating any client state (handler
exceptions are caught and logged, never propagated, and do not prevent the
remaining handlers from running); a handler removed by its unsubscribe
closure is not in the registered list afterwards, and a topic whose
registered list is empty is absent from the topic map. -/
theorem notification_dispatch (throws : Nat → Bool) (evs : List RpcEvent) (t : String) :
    (notifyOut throws evs t).invoked
        = (registeredAfter evs t).map (fun h => (h, throws h)) ∧
    (step throws (runRpc throws initRpcState evs).state (RpcEvent.notifyEv t)).1
        = (runRpc throws initRpcState evs).state ∧
    (registeredAfter evs t).Nodup ∧
    (registeredAfter evs t = [] →
      ((runRpc throws initRpcState evs).state.listeners.all fun p => p.1 != t) = true) ∧
    (∀ h, h ∉ registeredAfter (evs ++ [RpcEvent.unsubscribeEv t h]) t) := by
  have hk0 : ((initRpcState.listeners).map Prod.fst).Nodup := List.nodup_nil
  have he0 : ∀ p ∈ initRpcState.listeners, p.2 ≠ [] ∧ p.2.Nodup := by
    intro p hp
    simp [initRpcState] at hp
  have hlook := runRpc_lookup throws evs initRpcState t hk0
  have hreg : lookupTopic (runRpc throws initRpcState evs).state.listeners t
      = registeredAfter evs t := hlook
  refine ⟨?_, rfl, ?_, ?_, ?_⟩
  · simp only [notifyOut, step, hreg]
  · exact foldl_regStep_nodup t evs [] List.nodup_nil
  · intro hnil
    refine all_keys_ne_of_lookup_nil _ t
      (runRpc_listeners_entries throws evs initRpcState he0) ?_
    rw [hreg]
    exact hnil
  · intro h
    rw [registeredAfter, List.foldl_append]
    simp only [List.foldl_cons, List.foldl_nil, regStep, beq_self_eq_true, if_true]
    intro hc
    have := List.of_mem_filter hc
    simp at this

/-- C8 (witness): after subscribing and then unsubscribing the only handler,
the registered list is empty and the topic is gone from the map. -/
theorem notification_dispatch_witness :
    ((runRpc thr0 initRpcState
        [RpcEvent.subscribeEv "thread/event" 3,
          RpcEvent.unsubscribeEv "thread/event" 3]).state.listeners.all
      fun p => p.1 != "thread/event") = true :=
  (notification_dispatch thr0
      [RpcEvent.subscribeEv "thread/event" 3, RpcEvent.unsubscribeEv "thread/event" 3]
      "thread/event").2.2.2.1 (by decide)

end CodexMonitor
